import Mathlib

/-!
Shallow embedding of the Kakuro solver core (src/common.py, src/kakuro_solver.py)
and verification of the specification claims about it.

Conventions of the embedding:
* Python ints are `Int` (clue sums) or `Nat` (grid coordinates; all claims are
  about descriptors with in-range, hence non-negative, coordinates).
* Python `dict[Cell, ClueCell]` is an association list with insertion order and
  in-place overwrite on key collision, exactly the observable dict semantics.
* Python truthiness of optional ints/bools is modelled explicitly.
* The call to the Z3 SMT solver is modelled logically: `SolverOK p g` states
  that the integer grid `g` satisfies exactly the constraints that
  `solve_kakuro` asserts; Z3 is treated as a sound and complete oracle, so
  `solve_kakuro` returns a solution iff some `g` satisfies `SolverOK` (and it
  did not crash while building the constraints, see `solveRaises`).
-/

namespace Kakuro

/-- A cell descriptor as read from the puzzle JSON: coordinates plus optional
`wall`, `right` and `down` fields (absent fields are `none`). -/
structure CellDesc where
  x : Nat
  y : Nat
  wall : Option Bool
  right : Option Int
  down : Option Int
  deriving DecidableEq, Repr

/-- Python truthiness of `cell.get("right")` / `cell.get("down")`:
`None` and `0` are falsy, every other int is truthy. -/
def truthyInt : Option Int → Bool
  | none => false
  | some n => n != 0

/-- Python truthiness of `cell.get("wall")`: `None` and `False` are falsy. -/
def truthyBool : Option Bool → Bool
  | none => false
  | some b => b

/-- Truthiness of the Python expression
`cell.get("wall") or row_sum or col_sum` in `KakuroPuzzle.__init__`. -/
def wallTruthy (c : CellDesc) : Bool :=
  truthyBool c.wall || truthyInt c.right || truthyInt c.down

/-- The `ClueCell` dataclass of src/common.py.  The Python `is_wall` field
stores the first truthy value of `wall`/`row_sum`/`col_sum`; only its
truthiness is ever observed (`KakuroPuzzle.is_wall`), so it is a `Bool` here. -/
structure ClueCell where
  x : Nat
  y : Nat
  row_sum : Option Int
  col_sum : Option Int
  is_wall : Bool
  deriving DecidableEq, Repr

/-- The `board` dict of `KakuroPuzzle`: keys in insertion order. -/
abbrev Board := List ((Nat × Nat) × ClueCell)

/-- `board[k] = v` on a Python dict: overwrite in place if the key is present,
otherwise append. -/
def insertBoard : Board → Nat × Nat → ClueCell → Board
  | [], k, v => [(k, v)]
  | e :: rest, k, v => if e.1 = k then (k, v) :: rest else e :: insertBoard rest k v

/-- `board.get(k)`: value of the (unique) entry with key `k`, if any. -/
def boardFind : Board → Nat × Nat → Option ClueCell
  | [], _ => none
  | e :: rest, k => if e.1 = k then some e.2 else boardFind rest k

/-- The `ClueCell(x, y, row_sum, col_sum, is_wall)` stored for a descriptor. -/
def clueOfDesc (c : CellDesc) : ClueCell :=
  ⟨c.x, c.y, c.right, c.down, wallTruthy c⟩

/-- One iteration of the `for cell in cells` loop of `KakuroPuzzle.__init__`. -/
def boardStep (b : Board) (c : CellDesc) : Board :=
  if wallTruthy c then insertBoard b (c.x, c.y) (clueOfDesc c) else b

/-- The whole construction loop of `KakuroPuzzle.__init__`. -/
def mkBoard (cells : List CellDesc) : Board :=
  cells.foldl boardStep []

/-- The `KakuroPuzzle` class: `size = (rows, cols)` plus the board dict. -/
structure KakuroPuzzle where
  size : Nat × Nat
  board : Board
  deriving Repr

/-- `KakuroPuzzle(size, cells)`. -/
def KakuroPuzzle.mk' (size : Nat × Nat) (cells : List CellDesc) : KakuroPuzzle :=
  ⟨size, mkBoard cells⟩

/-- `KakuroPuzzle.get_clue(col, row)`. -/
def KakuroPuzzle.get_clue (p : KakuroPuzzle) (col row : Nat) : Option ClueCell :=
  boardFind p.board (col, row)

/-- `KakuroPuzzle.is_wall(col, row)`: truthiness of `cell and cell.is_wall`. -/
def KakuroPuzzle.is_wall (p : KakuroPuzzle) (col row : Nat) : Bool :=
  match p.get_clue col row with
  | none => false
  | some c => c.is_wall

/-- `KakuroPuzzle.clues`: the dict values in insertion order. -/
def KakuroPuzzle.cluesList (p : KakuroPuzzle) : List ClueCell :=
  p.board.map Prod.snd

/-- `get_sum_run(puzzle, first_x, first_y, direction)` of src/kakuro_solver.py.
The Python `for … if is_wall: break … append` loop over `range(a, b)` is the
`takeWhile` of the non-wall predicate over `List.range' a (b - a)`. -/
def get_sum_run (p : KakuroPuzzle) (first_x first_y : Nat) (direction : String) :
    Nat × List (Nat × Nat) :=
  let rows := p.size.1
  let cols := p.size.2
  let cells :=
    if direction = "right" then
      ((List.range' (first_x + 1) (cols - (first_x + 1))).takeWhile
        (fun x => !(p.is_wall x first_y))).map (fun x => (x, first_y))
    else
      ((List.range' (first_y + 1) (rows - (first_y + 1))).takeWhile
        (fun y => !(p.is_wall first_x y))).map (fun y => (first_x, y))
  (cells.length, cells)

/-- The cells of the rightward run anchored at a clue, as `solve_kakuro`
computes them (`get_sum_run(puzzle, x, y, "right")`). -/
def rightCells (p : KakuroPuzzle) (clue : ClueCell) : List (Nat × Nat) :=
  (get_sum_run p clue.x clue.y "right").2

/-- The cells of the downward run anchored at a clue. -/
def downCells (p : KakuroPuzzle) (clue : ClueCell) : List (Nat × Nat) :=
  (get_sum_run p clue.x clue.y "down").2

/-- A `SolutionCell` dataclass of src/common.py. -/
structure SolutionCell where
  x : Nat
  y : Nat
  value : Int
  deriving DecidableEq, Repr

/-- The constraints `solver.add(Sum(cell_vars) == s)` and
`solver.add(Distinct(cell_vars))`, asserted only when the run is nonempty
(`if right_cells:` / `if down_cells:` in `solve_kakuro`). -/
def runConstraintOK (g : Nat → Nat → Int) (s : Int) (cells : List (Nat × Nat)) : Prop :=
  cells ≠ [] →
    ((cells.map (fun rc => g rc.1 rc.2)).sum = s ∧
      (cells.map (fun rc => g rc.1 rc.2)).Pairwise (fun a b => a ≠ b))

instance (g : Nat → Nat → Int) (s : Int) (cells : List (Nat × Nat)) :
    Decidable (runConstraintOK g s cells) := by
  unfold runConstraintOK; infer_instance

/-- Run constraint for an optional clue sum: nothing is asserted when the
field is `None` (`if row_sum is not None:` / `if col_sum is not None:`). -/
def optConstraintOK (g : Nat → Nat → Int) (o : Option Int) (cells : List (Nat × Nat)) : Prop :=
  match o with
  | none => True
  | some s => runConstraintOK g s cells

instance (g : Nat → Nat → Int) (o : Option Int) (cells : List (Nat × Nat)) :
    Decidable (optConstraintOK g o cells) :=
  match o with
  | none => isTrue trivial
  | some s => inferInstanceAs (Decidable (runConstraintOK g s cells))

/-- The per-cell basic constraint of `solve_kakuro`: clue cells are pinned to
`0`, all other grid cells are constrained to `1 ≤ v ≤ 9`. -/
def cellConstraintOK (p : KakuroPuzzle) (g : Nat → Nat → Int) (i j : Nat) : Prop :=
  match p.get_clue i j with
  | some _ => g i j = 0
  | none => 1 ≤ g i j ∧ g i j ≤ 9

instance (p : KakuroPuzzle) (g : Nat → Nat → Int) (i j : Nat) :
    Decidable (cellConstraintOK p g i j) := by
  unfold cellConstraintOK; exact match p.get_clue i j with
  | some _ => inferInstanceAs (Decidable (_ = _))
  | none => inferInstanceAs (Decidable (_ ∧ _))

/-- All basic constraints of `solve_kakuro` (the `for i … for j …` loop). -/
def basicOK (p : KakuroPuzzle) (g : Nat → Nat → Int) : Prop :=
  ∀ i < p.size.1, ∀ j < p.size.2, cellConstraintOK p g i j

/-- All sum constraints of `solve_kakuro` (the `for clue in puzzle.clues` loop). -/
def sumOK (p : KakuroPuzzle) (g : Nat → Nat → Int) : Prop :=
  ∀ clue ∈ p.cluesList,
    optConstraintOK g clue.row_sum (rightCells p clue) ∧
    optConstraintOK g clue.col_sum (downCells p clue)

/-- `g` satisfies exactly the constraint system `solve_kakuro` hands to Z3. -/
def SolverOK (p : KakuroPuzzle) (g : Nat → Nat → Int) : Prop :=
  basicOK p g ∧ sumOK p g

instance (p : KakuroPuzzle) (g : Nat → Nat → Int) : Decidable (basicOK p g) := by
  unfold basicOK; infer_instance

instance (p : KakuroPuzzle) (g : Nat → Nat → Int) : Decidable (sumOK p g) := by
  unfold sumOK; infer_instance

instance (p : KakuroPuzzle) (g : Nat → Nat → Int) : Decidable (SolverOK p g) := by
  unfold SolverOK; infer_instance

/-- Whether translating this clue's runs into Z3 variables raises an
`IndexError`: `cell_vars = [grid[r][c] for r, c in cells]` indexes the
`rows × cols` grid with a run coordinate, so it raises iff some run cell has
first component `≥ rows` or second component `≥ cols`.  The comprehension only
runs when the corresponding sum field is present. -/
def solveRaisesClue (p : KakuroPuzzle) (clue : ClueCell) : Bool :=
  (clue.row_sum.isSome &&
    (rightCells p clue).any (fun rc => p.size.1 ≤ rc.1 || p.size.2 ≤ rc.2)) ||
  (clue.col_sum.isSome &&
    (downCells p clue).any (fun rc => p.size.1 ≤ rc.1 || p.size.2 ≤ rc.2))

/-- Whether `solve_kakuro` raises an `IndexError` while building constraints. -/
def solveRaises (p : KakuroPuzzle) : Bool :=
  p.cluesList.any (solveRaisesClue p)

/-- The solution-extraction loop of `solve_kakuro`: one `SolutionCell(i, j, v)`
for every grid cell whose model value is positive (`if value := …` then
`if value > 0` keeps exactly the positive values), rows in ascending order. -/
def extractRow (p : KakuroPuzzle) (g : Nat → Nat → Int) (i : Nat) : List SolutionCell :=
  (List.range p.size.2).filterMap
    (fun j => if 0 < g i j then some ⟨i, j, g i j⟩ else none)

/-- The full `solution_cells` list returned by `solve_kakuro` for model `g`. -/
def extractSolution (p : KakuroPuzzle) (g : Nat → Nat → Int) : List SolutionCell :=
  (List.range p.size.1).foldr (fun i acc => extractRow p g i ++ acc) []

/-- `solve_kakuro p` can return the solution extracted from model `g`:
it neither raised while building constraints nor got `unsat` from Z3
(Z3 is sound, so any model it reports satisfies the asserted constraints). -/
def SolveReturns (p : KakuroPuzzle) (g : Nat → Nat → Int) : Prop :=
  solveRaises p = false ∧ SolverOK p g

instance (p : KakuroPuzzle) (g : Nat → Nat → Int) : Decidable (SolveReturns p g) := by
  unfold SolveReturns; infer_instance

/-- `solve_kakuro p` returns `None`: it did not raise and, Z3 being complete,
the asserted constraint system has no model at all. -/
def SolveReturnsNone (p : KakuroPuzzle) : Prop :=
  solveRaises p = false ∧ ∀ g, ¬ SolverOK p g

/-- The digit a solution list assigns to a coordinate, if any. -/
def solValue (sol : List SolutionCell) (x y : Nat) : Option Int :=
  (sol.find? (fun c => c.x == x && c.y == y)).map (fun c => c.value)

/-- Modelled from the spec: the repository has no Solution Validator source
(src/kakuro_validator.py only checks the JSON format), so §4.5's per-blank
check is taken from the spec's words: "every Blank cell has exactly one digit
1–9". -/
def blankHasOneDigit (sol : List SolutionCell) (i j : Nat) : Prop :=
  sol.countP (fun c => c.x == i && c.y == j) = 1 ∧
    ∀ c ∈ sol, c.x = i → c.y = j → 1 ≤ c.value ∧ c.value ≤ 9

instance (sol : List SolutionCell) (i j : Nat) : Decidable (blankHasOneDigit sol i j) := by
  unfold blankHasOneDigit; infer_instance

/-- Modelled from the spec: §4.5's per-run check, "the multiset of assigned
digits is pairwise distinct and sums exactly to the run's target" (every run
cell must carry a digit). -/
def validRun (sol : List SolutionCell) (cells : List (Nat × Nat)) (s : Int) : Prop :=
  (∀ rc ∈ cells, (solValue sol rc.1 rc.2).isSome = true) ∧
    (cells.map (fun rc => solValue sol rc.1 rc.2)).reduceOption.Pairwise (fun a b => a ≠ b) ∧
    (cells.map (fun rc => solValue sol rc.1 rc.2)).reduceOption.sum = s

instance (sol : List SolutionCell) (cells : List (Nat × Nat)) (s : Int) :
    Decidable (validRun sol cells s) := by
  unfold validRun; infer_instance

/-- Per-run check for an optional clue sum: a direction with no declared sum
imposes no run. -/
def optValidRun (sol : List SolutionCell) (o : Option Int) (cells : List (Nat × Nat)) : Prop :=
  match o with
  | none => True
  | some s => validRun sol cells s

instance (sol : List SolutionCell) (o : Option Int) (cells : List (Nat × Nat)) :
    Decidable (optValidRun sol o cells) :=
  match o with
  | none => isTrue trivial
  | some s => inferInstanceAs (Decidable (validRun sol cells s))

/-- Modelled from the spec: the Solution Validator component (§4.5), absent
from src/.  It accepts a candidate solution iff every in-grid Blank cell
carries exactly one digit 1–9 and every declared run's digits are pairwise
distinct and sum to the target.  The spec fixes `(x, y) = (column, row)`
(§3, §9) with `size = (rows, cols)`, so the in-grid Blank cells are the
coordinates `x ∈ [0, cols) × y ∈ [0, rows)` without a stored wall/clue
(`get_clue` takes `(col, row)`).  Runs are the ones the repository's own Run
Extractor (`get_sum_run`) yields. -/
def validatorAccepts (p : KakuroPuzzle) (sol : List SolutionCell) : Prop :=
  (∀ x < p.size.2, ∀ y < p.size.1, p.get_clue x y = none → blankHasOneDigit sol x y) ∧
    ∀ clue ∈ p.cluesList,
      optValidRun sol clue.row_sum (rightCells p clue) ∧
      optValidRun sol clue.col_sum (downCells p clue)

instance (p : KakuroPuzzle) (sol : List SolutionCell) : Decidable (validatorAccepts p sol) := by
  unfold validatorAccepts; infer_instance

/-- Modelled from the spec: one run condition of the reference brute-force
check of §8 — the digits a full assignment gives to the run's cells are
pairwise distinct and sum to the declared target (no empty-run exemption:
the reference quantifies over every declared run). -/
def optRunSat (f : Nat → Nat → Int) (o : Option Int) (cells : List (Nat × Nat)) : Prop :=
  match o with
  | none => True
  | some s =>
      (cells.map (fun rc => f rc.1 rc.2)).sum = s ∧
        (cells.map (fun rc => f rc.1 rc.2)).Pairwise (fun a b => a ≠ b)

instance (f : Nat → Nat → Int) (o : Option Int) (cells : List (Nat × Nat)) :
    Decidable (optRunSat f o cells) :=
  match o with
  | none => isTrue trivial
  | some _ => inferInstanceAs (Decidable (_ ∧ _))

/-- Modelled from the spec: the reference brute-force check of §8 —
"exhaustive enumeration" finds an assignment giving each blank cell a digit
1..9 such that every declared run is distinct and sums to its target. -/
def BruteForceSat (p : KakuroPuzzle) : Prop :=
  ∃ f : Nat → Nat → Int,
    (∀ i < p.size.1, ∀ j < p.size.2, p.get_clue i j = none → 1 ≤ f i j ∧ f i j ≤ 9) ∧
    ∀ clue ∈ p.cluesList,
      optRunSat f clue.row_sum (rightCells p clue) ∧
      optRunSat f clue.col_sum (downCells p clue)

/-- Every clue's declared run is nonempty (the spec's well-formedness side
condition: an empty run is malformed puzzle data, §4.2). -/
def noEmptyRuns (p : KakuroPuzzle) : Prop :=
  ∀ clue ∈ p.cluesList,
    (clue.row_sum.isSome = true → rightCells p clue ≠ []) ∧
    (clue.col_sum.isSome = true → downCells p clue ≠ [])

instance (p : KakuroPuzzle) : Decidable (noEmptyRuns p) := by
  unfold noEmptyRuns; infer_instance

/-! ### Concrete boards used by counterexamples and witnesses -/

/-- 1×1 board whose only descriptor is a clue at (0,0) with `right=3`.
Its rightward run is empty: the clue's sum has no cells to satisfy it. -/
def danglingCluePuzzle : KakuroPuzzle :=
  KakuroPuzzle.mk' (1, 1) [⟨0, 0, none, some 3, none⟩]

/-- The all-zero grid assignment. -/
def zeroGrid : Nat → Nat → Int := fun _ _ => 0

/-- The spec's §8 scenario: size = (2, 3) (2 rows, 3 cols), one clue at (0,0)
with `right=3`, whose run covers (1,0) and (2,0). -/
def scenarioPuzzle : KakuroPuzzle :=
  KakuroPuzzle.mk' (2, 3) [⟨0, 0, none, some 3, none⟩]

/-- A 2×2 board with one clue at (0,0) with `right=3`; its rightward run is
the single cell (1,0).  A well-formed, solvable square puzzle. -/
def squarePuzzle : KakuroPuzzle :=
  KakuroPuzzle.mk' (2, 2) [⟨0, 0, none, some 3, none⟩]

/-- A model of `squarePuzzle`'s constraints: 0 on the clue cell, 3 on the run
cell, 1 on the unconstrained blanks. -/
def squareModel : Nat → Nat → Int := fun i j =>
  if i = 0 ∧ j = 0 then 0 else if i = 1 ∧ j = 0 then 3 else 1

/-- A brute-force assignment for `squarePuzzle`: 3 on the run cell, 1 on the
other blanks (the clue cell's value is ignored by the reference check). -/
def squareAssign : Nat → Nat → Int := fun i j =>
  if i = 1 ∧ j = 0 then 3 else 1

/-- A brute-force assignment for `scenarioPuzzle`: digits 1 and 2 on the
run cells (1,0) and (2,0), 1 elsewhere. -/
def scenarioAssign : Nat → Nat → Int := fun i j =>
  if i = 1 ∧ j = 0 then 1 else if i = 2 ∧ j = 0 then 2 else 1

/-- A well-formed all-blank non-square board: size = (3, 2), i.e. 3 rows and
2 cols, with no descriptors at all (no clues, no runs, nothing to raise on). -/
def blankRectPuzzle : KakuroPuzzle :=
  KakuroPuzzle.mk' (3, 2) []

/-- The all-ones grid assignment: a model of `blankRectPuzzle`'s constraints. -/
def oneGrid : Nat → Nat → Int := fun _ _ => 1

/-! ### Model of `pretty_json_str` (src/common.py)

The puzzle dict handed to `pretty_json_str` is modelled as `PuzzleDoc`:
`size` a pair of ints, `cells` (and optionally `solution_cells`) lists of
ordered key/value dicts.  Values cover the scalars relevant to the schema
and the formatter: ints, booleans and strings. -/

/-- A scalar JSON value stored in a cell dict. -/
inductive JVal where
  | jint (n : Int)
  | jbool (b : Bool)
  | jstr (s : String)
  deriving DecidableEq, Repr

/-- One cell descriptor dict: keys in insertion order. -/
abbrev JCell := List (String × JVal)

/-- The puzzle dict: `size`, `cells`, optional `solution_cells`. -/
structure PuzzleDoc where
  size : Int × Int
  cells : List JCell
  solution_cells : Option (List JCell)
  deriving DecidableEq, Repr

/-- `cell[key]` for the sort key: the schema guarantees `x`/`y` are present
integers; any other shape is mapped to 0 (Python would raise instead, but
the claims only concern schema-valid dicts). -/
def cellIntField (key : String) (c : JCell) : Int :=
  match c.lookup key with
  | some (JVal.jint n) => n
  | _ => 0

/-- The comparator induced by Python's `key=lambda cell: (cell["x"], cell["y"])`:
ascending lexicographic order on the (x, y) key. -/
def cellKeyLe (a b : JCell) : Bool :=
  decide (cellIntField "x" a < cellIntField "x" b) ||
    (decide (cellIntField "x" a = cellIntField "x" b) &&
      decide (cellIntField "y" a ≤ cellIntField "y" b))

/-- Stable insertion into a sorted list: an element goes before the first
element it compares `≤` to, so equal keys keep their original order —
the observable behavior of Python's stable `list.sort`. -/
def insertSorted (c : JCell) : List JCell → List JCell
  | [] => [c]
  | d :: rest => if cellKeyLe c d then c :: d :: rest else d :: insertSorted c rest

/-- The effect of `puzzle["cells"].sort(key=...)`: a stable sort by (x, y). -/
def sortCells (l : List JCell) : List JCell :=
  l.foldr insertSorted []

/-- The in-place mutation `pretty_json_str` performs on its argument before
building the string: both lists sorted, everything else untouched. -/
def prettySortEffect (d : PuzzleDoc) : PuzzleDoc :=
  { d with cells := sortCells d.cells, solution_cells := d.solution_cells.map sortCells }

/-- `f'"key": value'` for a cell entry: booleans are lowercased
(`str(value).lower()`), every other value is rendered with `str()` — an int
as its decimal form, a string as its raw text with no quotes (which is how a
string-valued extra key breaks the produced JSON). -/
def renderJVal : JVal → String
  | JVal.jint n => toString n
  | JVal.jbool b => if b then "true" else "false"
  | JVal.jstr s => s

/-- The solution-cells formatter has no boolean case: plain `str()`, so a
boolean would render Python-style as `True`/`False`. -/
def renderJValRaw : JVal → String
  | JVal.jint n => toString n
  | JVal.jbool b => if b then "True" else "False"
  | JVal.jstr s => s

/-- One `"key": value` part of a formatted cell. -/
def renderPair (kv : String × JVal) : String :=
  "\"" ++ kv.1 ++ "\": " ++ renderJVal kv.2

/-- One formatted cell line: `    \x7b "k": v, ... \x7d`. -/
def renderCellLine (c : JCell) : String :=
  "    " ++ ("\x7b " ++ String.intercalate ", " (c.map renderPair) ++ " \x7d")

/-- One `"key": value` part of a formatted solution cell. -/
def renderSolPair (kv : String × JVal) : String :=
  "\"" ++ kv.1 ++ "\": " ++ renderJValRaw kv.2

/-- One formatted solution-cell line. -/
def renderSolLine (c : JCell) : String :=
  "    " ++ ("\x7b " ++ String.intercalate ", " (c.map renderSolPair) ++ " \x7d")

/-- The exact string `pretty_json_str` builds (after the in-place sort).
Mirrors the concatenation literally; note the `",\n"` after the cells array
is followed directly by `"\x7d"` when there is no `solution_cells` key —
a trailing comma. -/
def prettyRender (d : PuzzleDoc) : String :=
  let size_str := "[" ++ toString d.size.1 ++ ", " ++ toString d.size.2 ++ "]"
  let base := "\x7b\n" ++ "  \"size\": " ++ size_str ++ ",\n" ++ "  \"cells\": [\n"
      ++ String.intercalate ",\n" (d.cells.map renderCellLine) ++ "\n  ],\n"
  match d.solution_cells with
  | some sol => base ++ "  \"solution_cells\": [\n"
      ++ String.intercalate ",\n" (sol.map renderSolLine) ++ "\n  ]\n" ++ "\x7d"
  | none => base ++ "\x7d"

/-! ### A strict JSON reader (modelling `json.loads`)

Executable recursive-descent reader for the JSON fragment relevant here:
objects, arrays, integers, booleans and escape-free strings.  Like Python's
`json.loads` it rejects trailing commas and raw control characters inside
strings; backslash escape sequences are not needed by any claim and are
rejected. -/

/-- A parsed JSON value (objects keep field order). -/
inductive Json where
  | num (n : Int)
  | bool (b : Bool)
  | str (s : String)
  | arr (xs : List Json)
  | obj (fields : List (String × Json))
  deriving Repr

/-- Skip JSON whitespace. -/
def skipWs : List Char → List Char
  | [] => []
  | c :: rest =>
      if c = ' ' ∨ c = '\n' ∨ c = '\t' ∨ c = '\r' then skipWs rest else c :: rest

/-- Read string characters up to the closing quote; a backslash or a raw
control character is an error (as in strict `json.loads`; escape sequences
are out of scope). -/
def takeStringChars : List Char → Option (List Char × List Char)
  | [] => none
  | c :: rest =>
      if c = '\"' then some ([], rest)
      else if c = '\\' ∨ c.toNat < 32 then none
      else (takeStringChars rest).map (fun p => (c :: p.1, p.2))

/-- Longest digit prefix. -/
def takeDigits : List Char → List Char × List Char
  | [] => ([], [])
  | c :: rest =>
      if c.isDigit then
        let p := takeDigits rest
        (c :: p.1, p.2)
      else ([], c :: rest)

/-- Decimal value of a digit list. -/
def digitsToNat (ds : List Char) : Nat :=
  ds.foldl (fun acc c => acc * 10 + (c.toNat - 48)) 0

/-- Read an integer literal (optional minus sign, one or more digits). -/
def parseIntTok : List Char → Option (Int × List Char)
  | '-' :: rest =>
      match takeDigits rest with
      | ([], _) => none
      | (ds, r) => some (-(digitsToNat ds : Int), r)
  | cs =>
      match takeDigits cs with
      | ([], _) => none
      | (ds, r) => some ((digitsToNat ds : Int), r)

mutual

/-- Read one JSON value (fuel-bounded recursion). -/
def parseVal : Nat → List Char → Option (Json × List Char)
  | 0, _ => none
  | fuel + 1, cs =>
      match skipWs cs with
      | '\"' :: rest => (takeStringChars rest).map (fun p => (Json.str (String.mk p.1), p.2))
      | '[' :: rest =>
          match skipWs rest with
          | ']' :: r2 => some (Json.arr [], r2)
          | cs2 =>
              match parseVal fuel cs2 with
              | none => none
              | some (v, r2) => parseArrRest fuel [v] (skipWs r2)
      | '\x7b' :: rest =>
          match skipWs rest with
          | '\x7d' :: r2 => some (Json.obj [], r2)
          | cs2 =>
              match parseField fuel cs2 with
              | none => none
              | some (kv, r2) => parseObjRest fuel [kv] (skipWs r2)
      | 't' :: 'r' :: 'u' :: 'e' :: rest => some (Json.bool true, rest)
      | 'f' :: 'a' :: 'l' :: 's' :: 'e' :: rest => some (Json.bool false, rest)
      | cs2 => (parseIntTok cs2).map (fun p => (Json.num p.1, p.2))

/-- After one array item: expect `,` then another item, or `]`. -/
def parseArrRest : Nat → List Json → List Char → Option (Json × List Char)
  | 0, _, _ => none
  | fuel + 1, acc, cs =>
      match cs with
      | ']' :: rest => some (Json.arr acc.reverse, rest)
      | ',' :: rest =>
          match parseVal fuel rest with
          | none => none
          | some (v, r2) => parseArrRest fuel (v :: acc) (skipWs r2)
      | _ => none

/-- One `"key": value` field of an object. -/
def parseField : Nat → List Char → Option ((String × Json) × List Char)
  | 0, _ => none
  | fuel + 1, cs =>
      match skipWs cs with
      | '\"' :: rest =>
          match takeStringChars rest with
          | none => none
          | some (k, r2) =>
              match skipWs r2 with
              | ':' :: r3 =>
                  match parseVal fuel r3 with
                  | none => none
                  | some (v, r4) => some ((String.mk k, v), r4)
              | _ => none
      | _ => none

/-- After one object field: expect `,` then another field — so a comma
followed by the closing brace (a trailing comma) is an error — or the
closing brace. -/
def parseObjRest : Nat → List (String × Json) → List Char → Option (Json × List Char)
  | 0, _, _ => none
  | fuel + 1, acc, cs =>
      match cs with
      | '\x7d' :: rest => some (Json.obj acc.reverse, rest)
      | ',' :: rest =>
          match parseField fuel rest with
          | none => none
          | some (kv, r2) => parseObjRest fuel (kv :: acc) (skipWs r2)
      | _ => none

end

/-- `json.loads`: one value, then only whitespace to the end of input. -/
def parseJson (s : String) : Option Json :=
  match parseVal (s.length + 16) s.toList with
  | some (v, rest) => if skipWs rest = [] then some v else none
  | none => none

/-! ### The JSON schema check (`PUZZLE_JSON_SCHEMA` of src/common.py) -/

/-- jsonschema `"type": "integer"` (a boolean is not an integer). -/
def isIntVal : Json → Bool
  | Json.num _ => true
  | _ => false

/-- jsonschema `"type": "boolean"`. -/
def isBoolVal : Json → Bool
  | Json.bool _ => true
  | _ => false

/-- First value of a field, as jsonschema sees an object. -/
def objGet (fields : List (String × Json)) (k : String) : Option Json :=
  (fields.find? (fun kv => kv.1 == k)).map (fun kv => kv.2)

/-- The schema's `cells` item: `x`, `y` required integers; `wall` boolean,
`right`/`down` integers when present; at least one of the three present. -/
def cellSchemaOK : Json → Bool
  | Json.obj fs =>
      (match objGet fs "x" with | some v => isIntVal v | none => false) &&
      (match objGet fs "y" with | some v => isIntVal v | none => false) &&
      (match objGet fs "wall" with | some v => isBoolVal v | none => true) &&
      (match objGet fs "right" with | some v => isIntVal v | none => true) &&
      (match objGet fs "down" with | some v => isIntVal v | none => true) &&
      ((objGet fs "wall").isSome || (objGet fs "right").isSome ||
        (objGet fs "down").isSome)
  | _ => false

/-- The schema's `solution_cells` item: `x`, `y`, `value` required integers. -/
def solCellSchemaOK : Json → Bool
  | Json.obj fs =>
      (match objGet fs "x" with | some v => isIntVal v | none => false) &&
      (match objGet fs "y" with | some v => isIntVal v | none => false) &&
      (match objGet fs "value" with | some v => isIntVal v | none => false)
  | _ => false

/-- `PUZZLE_JSON_SCHEMA`: `size` an array of exactly two integers, `cells` a
list of valid cell items (both required), `solution_cells` optional. -/
def jsonSchemaOK : Json → Bool
  | Json.obj fs =>
      (match objGet fs "size" with
       | some (Json.arr [a, b]) => isIntVal a && isIntVal b
       | _ => false) &&
      (match objGet fs "cells" with
       | some (Json.arr cs) => cs.all cellSchemaOK
       | _ => false) &&
      (match objGet fs "solution_cells" with
       | some (Json.arr cs) => cs.all solCellSchemaOK
       | some _ => false
       | none => true)
  | _ => false

/-- A `PuzzleDoc` as the JSON value jsonschema validates. -/
def jsonOfJVal : JVal → Json
  | JVal.jint n => Json.num n
  | JVal.jbool b => Json.bool b
  | JVal.jstr s => Json.str s

/-- A cell dict as a JSON object. -/
def jsonOfCell (c : JCell) : Json :=
  Json.obj (c.map (fun kv => (kv.1, jsonOfJVal kv.2)))

/-- The whole puzzle dict as the JSON value jsonschema validates. -/
def jsonOfDoc (d : PuzzleDoc) : Json :=
  Json.obj
    ([("size", Json.arr [Json.num d.size.1, Json.num d.size.2]),
      ("cells", Json.arr (d.cells.map jsonOfCell))] ++
      (match d.solution_cells with
       | some sol => [("solution_cells", Json.arr (sol.map jsonOfCell))]
       | none => []))

/-- `validate(instance=puzzle, schema=PUZZLE_JSON_SCHEMA)` on the input dict. -/
def docSchemaOK (d : PuzzleDoc) : Bool := jsonSchemaOK (jsonOfDoc d)

/-- Model of `pretty_json_str` of src/common.py.  `none` models an exception:
the initial `validate` of the argument, the `json.loads` of the built string,
or the final `validate` of the parsed result raising.  On success the result
is the pair (the mutated argument, the returned string): the function sorts
`cells` and `solution_cells` in place before building the string. -/
def pretty_json_str (d : PuzzleDoc) : Option (PuzzleDoc × String) :=
  if docSchemaOK d = false then none
  else
    let d' := prettySortEffect d
    let s := prettyRender d'
    match parseJson s with
    | none => none
    | some j => if jsonSchemaOK j then some (d', s) else none

/-- A schema-valid puzzle dict with two wall cells listed out of order and no
`solution_cells` key. -/
def puzzleDocNoSol : PuzzleDoc :=
  ⟨(2, 2),
    [[("x", JVal.jint 1), ("y", JVal.jint 0), ("wall", JVal.jbool true)],
     [("x", JVal.jint 0), ("y", JVal.jint 0), ("wall", JVal.jbool true)]],
    none⟩

/-- The same dict with a `solution_cells` list present. -/
def puzzleDocWithSol : PuzzleDoc :=
  ⟨(2, 2),
    [[("x", JVal.jint 1), ("y", JVal.jint 0), ("wall", JVal.jbool true)],
     [("x", JVal.jint 0), ("y", JVal.jint 0), ("wall", JVal.jbool true)]],
    some [[("x", JVal.jint 0), ("y", JVal.jint 1), ("value", JVal.jint 3)]]⟩

/-! ### Lemmas about the board dictionary -/

theorem boardFind_insert_self (b : Board) (k : Nat × Nat) (v : ClueCell) :
    boardFind (insertBoard b k v) k = some v := by
  induction b with
  | nil => simp [insertBoard, boardFind]
  | cons e rest ih =>
      by_cases h : e.1 = k
      · simp [insertBoard, h, boardFind]
      · simp [insertBoard, h, boardFind, ih]

theorem boardFind_insert_other (b : Board) (k k' : Nat × Nat) (v : ClueCell)
    (h : k' ≠ k) : boardFind (insertBoard b k v) k' = boardFind b k' := by
  induction b with
  | nil => simp [insertBoard, boardFind, Ne.symm h]
  | cons e rest ih =>
      by_cases h1 : e.1 = k
      · rw [insertBoard, if_pos h1, boardFind, boardFind,
          if_neg (show ¬ (k, v).1 = k' from Ne.symm h),
          if_neg (show ¬ e.1 = k' from by rw [h1]; exact Ne.symm h)]
      · simp only [insertBoard, if_neg h1, boardFind]
        by_cases h2 : e.1 = k'
        · rw [if_pos h2, if_pos h2]
        · rw [if_neg h2, if_neg h2, ih]

theorem mem_insertBoard {b : Board} {k : Nat × Nat} {v : ClueCell}
    {e : (Nat × Nat) × ClueCell} (h : e ∈ insertBoard b k v) : e = (k, v) ∨ e ∈ b := by
  induction b with
  | nil => simpa [insertBoard] using h
  | cons e' rest ih =>
      by_cases h1 : e'.1 = k
      · rw [insertBoard, if_pos h1] at h
        rcases List.mem_cons.mp h with h2 | h2
        · exact Or.inl h2
        · exact Or.inr (List.mem_cons_of_mem _ h2)
      · rw [insertBoard, if_neg h1] at h
        rcases List.mem_cons.mp h with h2 | h2
        · exact Or.inr (h2 ▸ List.mem_cons_self _ _)
        · rcases ih h2 with h3 | h3
          · exact Or.inl h3
          · exact Or.inr (List.mem_cons_of_mem _ h3)

theorem boardFind_mem {b : Board} {k : Nat × Nat} {c : ClueCell}
    (h : boardFind b k = some c) : (k, c) ∈ b := by
  induction b with
  | nil => simp [boardFind] at h
  | cons e rest ih =>
      rw [boardFind] at h
      by_cases h1 : e.1 = k
      · rw [if_pos h1] at h
        have h2 : e.2 = c := by injection h
        have : (k, c) = e := by
          rw [← h1, ← h2]
        exact this ▸ List.mem_cons_self _ _
      · rw [if_neg h1] at h
        exact List.mem_cons_of_mem _ (ih h)

/-- Every `ClueCell` the constructor stores has a truthy `is_wall` field:
a cell is inserted only in the `if is_wall:` branch, and the stored value is
the truthy test itself. -/
theorem mkBoard_is_wall (cells : List CellDesc) :
    ∀ e ∈ mkBoard cells, e.2.is_wall = true := by
  suffices h : ∀ b : Board, (∀ e ∈ b, e.2.is_wall = true) →
      ∀ e ∈ cells.foldl boardStep b, e.2.is_wall = true from h [] (by simp)
  induction cells with
  | nil => intro b hb; simpa using hb
  | cons c rest ih =>
      intro b hb
      rw [List.foldl_cons]
      refine ih (boardStep b c) ?_
      intro e he
      unfold boardStep at he
      by_cases hw : wallTruthy c = true
      · rw [if_pos hw] at he
        rcases mem_insertBoard he with h | h
        · rw [h]; simpa [clueOfDesc] using hw
        · exact hb e h
      · rw [if_neg hw] at he
        exact hb e he

/-- For a constructed puzzle, `is_wall` is the truthiness of `get_clue`:
run termination and clue detection agree on the same cells. -/
theorem mk'_is_wall_eq (size : Nat × Nat) (cells : List CellDesc) (u v : Nat) :
    (KakuroPuzzle.mk' size cells).is_wall u v
      = ((KakuroPuzzle.mk' size cells).get_clue u v).isSome := by
  unfold KakuroPuzzle.is_wall
  cases h : (KakuroPuzzle.mk' size cells).get_clue u v with
  | none => simp
  | some c =>
      simp only [Option.isSome_some]
      exact mkBoard_is_wall cells _ (boardFind_mem h)

theorem mk'_is_wall_false_iff (size : Nat × Nat) (cells : List CellDesc) (u v : Nat) :
    (KakuroPuzzle.mk' size cells).is_wall u v = false
      ↔ (KakuroPuzzle.mk' size cells).get_clue u v = none := by
  rw [mk'_is_wall_eq]
  cases h : (KakuroPuzzle.mk' size cells).get_clue u v <;> simp

/-! ### Lemmas about the run walk (`takeWhile` over `range'`) -/

/-- Membership in a guarded prefix of a contiguous range: `x` is collected iff
it lies in the range and the guard holds at every point from the start of the
range up to `x` (the walk stopped no earlier and collected everything). -/
theorem mem_takeWhile_range' (q : Nat → Bool) :
    ∀ n a x : Nat, x ∈ (List.range' a n).takeWhile q
      ↔ a ≤ x ∧ x < a + n ∧ ∀ z, a ≤ z → z ≤ x → q z = true := by
  intro n
  induction n with
  | zero =>
      intro a x
      simp only [List.range']
      constructor
      · intro h; simp at h
      · rintro ⟨h1, h2, _⟩; omega
  | succ n ih =>
      intro a x
      rw [List.range'_succ, List.takeWhile_cons]
      by_cases hq : q a = true
      · rw [if_pos hq]
        constructor
        · intro h
          rcases List.mem_cons.mp h with rfl | h
          · exact ⟨le_rfl, by omega, fun z h1 h2 => by
              have : z = x := le_antisymm h2 h1
              rwa [this]⟩
          · obtain ⟨h1, h2, h3⟩ := (ih (a + 1) x).mp h
            refine ⟨by omega, by omega, fun z hz1 hz2 => ?_⟩
            rcases Nat.eq_or_lt_of_le hz1 with rfl | hz
            · exact hq
            · exact h3 z hz hz2
        · rintro ⟨h1, h2, h3⟩
          rcases Nat.eq_or_lt_of_le h1 with rfl | hx
          · exact List.mem_cons_self _ _
          · exact List.mem_cons_of_mem _
              ((ih (a + 1) x).mpr ⟨hx, by omega, fun z hz1 hz2 => h3 z (by omega) hz2⟩)
      · rw [if_neg hq]
        constructor
        · intro h; simp at h
        · rintro ⟨h1, _, h3⟩
          exact absurd (h3 a le_rfl h1) hq

/-- The guarded prefix of a contiguous range is strictly increasing. -/
theorem pairwise_takeWhile_range' (q : Nat → Bool) (a n : Nat) :
    ((List.range' a n).takeWhile q).Pairwise (· < ·) :=
  (List.pairwise_lt_range' a n).sublist (List.takeWhile_sublist q)

/-- Computation rule: the rightward walk of `get_sum_run`. -/
theorem get_sum_run_right_def (p : KakuroPuzzle) (fx fy : Nat) :
    (get_sum_run p fx fy "right").2 =
      ((List.range' (fx + 1) (p.size.2 - (fx + 1))).takeWhile
        (fun x => !(p.is_wall x fy))).map (fun x => (x, fy)) := rfl

/-- Computation rule: the downward walk of `get_sum_run`. -/
theorem get_sum_run_down_def (p : KakuroPuzzle) (fx fy : Nat) :
    (get_sum_run p fx fy "down").2 =
      ((List.range' (fy + 1) (p.size.1 - (fy + 1))).takeWhile
        (fun y => !(p.is_wall fx y))).map (fun y => (fx, y)) := rfl

/-- Every rightward run cell is a non-wall cell: the walk stops at the first
wall. -/
theorem rightCells_not_wall {p : KakuroPuzzle} {clue : ClueCell} {rc : Nat × Nat}
    (h : rc ∈ rightCells p clue) : p.is_wall rc.1 rc.2 = false := by
  unfold rightCells at h
  rw [get_sum_run_right_def] at h
  rcases List.mem_map.mp h with ⟨x, hx, rfl⟩
  obtain ⟨h1, _, h3⟩ := (mem_takeWhile_range' _ _ _ _).mp hx
  have h2 := h3 x h1 le_rfl
  simpa using h2

/-- Every downward run cell is a non-wall cell. -/
theorem downCells_not_wall {p : KakuroPuzzle} {clue : ClueCell} {rc : Nat × Nat}
    (h : rc ∈ downCells p clue) : p.is_wall rc.1 rc.2 = false := by
  unfold downCells at h
  rw [get_sum_run_down_def] at h
  rcases List.mem_map.mp h with ⟨y, hy, rfl⟩
  obtain ⟨h1, _, h3⟩ := (mem_takeWhile_range' _ _ _ _).mp hy
  have h2 := h3 y h1 le_rfl
  simpa using h2

/-! ### Lemmas about the extracted solution list -/

theorem mem_extractRow {p : KakuroPuzzle} {g : Nat → Nat → Int} {i : Nat} {c : SolutionCell} :
    c ∈ extractRow p g i ↔ ∃ j < p.size.2, 0 < g i j ∧ c = ⟨i, j, g i j⟩ := by
  unfold extractRow
  rw [List.mem_filterMap]
  constructor
  · rintro ⟨j, hj, hfj⟩
    by_cases h : 0 < g i j
    · rw [if_pos h] at hfj
      exact ⟨j, List.mem_range.mp hj, h, (by injection hfj with h2; rw [h2])⟩
    · rw [if_neg h] at hfj; exact absurd hfj (by simp)
  · rintro ⟨j, hj, h0, rfl⟩
    exact ⟨j, List.mem_range.mpr hj, by rw [if_pos h0]⟩

theorem mem_extractFold {p : KakuroPuzzle} {g : Nat → Nat → Int} {c : SolutionCell} :
    ∀ l : List Nat, c ∈ l.foldr (fun i acc => extractRow p g i ++ acc) []
      ↔ ∃ i ∈ l, c ∈ extractRow p g i := by
  intro l
  induction l with
  | nil => simp
  | cons a l ih => simp [List.mem_append, ih]

theorem mem_extractSolution {p : KakuroPuzzle} {g : Nat → Nat → Int} {c : SolutionCell} :
    c ∈ extractSolution p g
      ↔ ∃ i < p.size.1, ∃ j < p.size.2, 0 < g i j ∧ c = ⟨i, j, g i j⟩ := by
  unfold extractSolution
  rw [mem_extractFold]
  constructor
  · rintro ⟨i, hi, hc⟩
    rcases mem_extractRow.mp hc with ⟨j, hj, h0, rfl⟩
    exact ⟨i, List.mem_range.mp hi, j, hj, h0, rfl⟩
  · rintro ⟨i, hi, j, hj, h0, rfl⟩
    exact ⟨i, List.mem_range.mpr hi, mem_extractRow.mpr ⟨j, hj, h0, rfl⟩⟩

theorem countP_extractRow_ne {p : KakuroPuzzle} {g : Nat → Nat → Int} {i i' j : Nat}
    (h : i' ≠ i) :
    (extractRow p g i').countP (fun c => c.x == i && c.y == j) = 0 := by
  rw [List.countP_eq_zero]
  intro c hc
  rcases mem_extractRow.mp hc with ⟨j', _, _, rfl⟩
  simp [h]

theorem countP_extractRow_self {p : KakuroPuzzle} {g : Nat → Nat → Int} {i j : Nat}
    (hj : j < p.size.2) (h0 : 0 < g i j) :
    (extractRow p g i).countP (fun c => c.x == i && c.y == j) = 1 := by
  unfold extractRow
  have key : ∀ l : List Nat, l.Nodup → j ∈ l →
      (l.filterMap (fun j' =>
          if 0 < g i j' then some (⟨i, j', g i j'⟩ : SolutionCell) else none)).countP
        (fun c => c.x == i && c.y == j) = 1 := by
    intro l
    induction l with
    | nil => intro _ h; simp at h
    | cons a l ih =>
        intro hnd hmem
        have hnd' : l.Nodup := hnd.of_cons
        rw [List.filterMap_cons]
        by_cases ha : 0 < g i a
        · rw [if_pos ha, List.countP_cons]
          by_cases haj : a = j
          · subst haj
            have hnotmem : a ∉ l := (List.nodup_cons.mp hnd).1
            have hz : (l.filterMap (fun j' =>
                if 0 < g i j' then some (⟨i, j', g i j'⟩ : SolutionCell) else none)).countP
                (fun c => c.x == i && c.y == a) = 0 := by
              rw [List.countP_eq_zero]
              intro c hc
              rcases List.mem_filterMap.mp hc with ⟨j', hj', hfj⟩
              by_cases h' : 0 < g i j'
              · rw [if_pos h'] at hfj
                injection hfj with h2
                rw [← h2]
                have : j' ≠ a := fun he => hnotmem (he ▸ hj')
                simp [this]
              · rw [if_neg h'] at hfj; exact absurd hfj (by simp)
            rw [hz]
            simp
          · have hm : j ∈ l := by
              rcases List.mem_cons.mp hmem with rfl | hm
              · exact absurd rfl haj
              · exact hm
            rw [ih hnd' hm]
            simp [haj]
        · rw [if_neg ha]
          have hm : j ∈ l := by
            rcases List.mem_cons.mp hmem with rfl | hm
            · exact absurd h0 ha
            · exact hm
          exact ih hnd' hm
  exact key (List.range p.size.2) (List.nodup_range _) (List.mem_range.mpr hj)

theorem countP_extractSolution {p : KakuroPuzzle} {g : Nat → Nat → Int} {i j : Nat}
    (hi : i < p.size.1) (hj : j < p.size.2) (h0 : 0 < g i j) :
    (extractSolution p g).countP (fun c => c.x == i && c.y == j) = 1 := by
  unfold extractSolution
  have key : ∀ l : List Nat, l.Nodup → i ∈ l →
      (l.foldr (fun i' acc => extractRow p g i' ++ acc) []).countP
        (fun c => c.x == i && c.y == j) = 1 := by
    intro l
    induction l with
    | nil => intro _ h; simp at h
    | cons a l ih =>
        intro hnd hmem
        have hnd' : l.Nodup := hnd.of_cons
        rw [List.foldr_cons, List.countP_append]
        by_cases hai : a = i
        · subst hai
          have hnotmem : a ∉ l := (List.nodup_cons.mp hnd).1
          have hz : (l.foldr (fun i' acc => extractRow p g i' ++ acc) []).countP
              (fun c => c.x == a && c.y == j) = 0 := by
            rw [List.countP_eq_zero]
            intro c hc
            rcases (mem_extractFold l).mp hc with ⟨i', hi', hc'⟩
            rcases mem_extractRow.mp hc' with ⟨j', _, _, rfl⟩
            have : i' ≠ a := fun he => hnotmem (he ▸ hi')
            simp [this]
          rw [hz, countP_extractRow_self hj h0]
        · have hm : i ∈ l := by
            rcases List.mem_cons.mp hmem with rfl | hm
            · exact absurd rfl hai
            · exact hm
          rw [countP_extractRow_ne hai, ih hnd' hm]
  exact key (List.range p.size.1) (List.nodup_range _) (List.mem_range.mpr hi)

/-- Looking a blank cell's value up in the extracted solution returns the
model value. -/
theorem solValue_extractSolution {p : KakuroPuzzle} {g : Nat → Nat → Int} {i j : Nat}
    (hi : i < p.size.1) (hj : j < p.size.2) (h0 : 0 < g i j) :
    solValue (extractSolution p g) i j = some (g i j) := by
  unfold solValue
  cases hf : (extractSolution p g).find? (fun c => c.x == i && c.y == j) with
  | none =>
      rw [List.find?_eq_none] at hf
      have hmem : (⟨i, j, g i j⟩ : SolutionCell) ∈ extractSolution p g :=
        mem_extractSolution.mpr ⟨i, hi, j, hj, h0, rfl⟩
      exact absurd (hf _ hmem) (by simp)
  | some c =>
      have hpred := List.find?_some hf
      have hmem := List.mem_of_find?_eq_some hf
      rcases mem_extractSolution.mp hmem with ⟨i', _, j', _, _, rfl⟩
      have h1 : i' = i ∧ j' = j := by simpa using hpred
      rw [h1.1, h1.2]
      rfl

/-! ### From `solveRaises = false` and `basicOK` to per-cell facts -/

theorem no_raise_bounds {p : KakuroPuzzle} {clue : ClueCell}
    (h : solveRaises p = false) (hc : clue ∈ p.cluesList) :
    (clue.row_sum.isSome = true →
      ∀ rc ∈ rightCells p clue, rc.1 < p.size.1 ∧ rc.2 < p.size.2) ∧
    (clue.col_sum.isSome = true →
      ∀ rc ∈ downCells p clue, rc.1 < p.size.1 ∧ rc.2 < p.size.2) := by
  unfold solveRaises at h
  rw [List.any_eq_false] at h
  have h2 := h clue hc
  simp only [solveRaisesClue, Bool.not_eq_true, Bool.or_eq_false_iff, Bool.and_eq_false_iff,
    List.any_eq_false, decide_eq_false_iff_not, Nat.not_le] at h2
  constructor
  · intro hs rc hrc
    rcases h2.1 with h3 | h3
    · rw [hs] at h3; exact absurd h3 (by simp)
    · have h4 := h3 rc hrc
      omega
  · intro hs rc hrc
    rcases h2.2 with h3 | h3
    · rw [hs] at h3; exact absurd h3 (by simp)
    · have h4 := h3 rc hrc
      omega

theorem basicOK_blank {p : KakuroPuzzle} {g : Nat → Nat → Int} (hb : basicOK p g)
    {i j : Nat} (hi : i < p.size.1) (hj : j < p.size.2)
    (hn : p.get_clue i j = none) : 1 ≤ g i j ∧ g i j ≤ 9 := by
  have h := hb i hi j hj
  unfold cellConstraintOK at h
  rw [hn] at h
  exact h

theorem basicOK_clue {p : KakuroPuzzle} {g : Nat → Nat → Int} (hb : basicOK p g)
    {i j : Nat} (hi : i < p.size.1) (hj : j < p.size.2)
    {c : ClueCell} (hc : p.get_clue i j = some c) : g i j = 0 := by
  have h := hb i hi j hj
  unfold cellConstraintOK at h
  rw [hc] at h
  exact h

theorem reduceOption_map_some {α β : Type _} (l : List α) (f : α → β) :
    (l.map (fun a => some (f a))).reduceOption = l.map f := by
  induction l with
  | nil => rfl
  | cons a l ih => simp [List.reduceOption_cons_of_some, ih]

/-- A run whose cells are in-bounds blanks and whose solver constraint holds
passes the validator's per-run check against the extracted solution. -/
theorem validRun_of_solver {p : KakuroPuzzle} {g : Nat → Nat → Int} {s : Int}
    {cl : List (Nat × Nat)} (hb : basicOK p g)
    (hbound : ∀ rc ∈ cl, rc.1 < p.size.1 ∧ rc.2 < p.size.2)
    (hblank : ∀ rc ∈ cl, p.get_clue rc.1 rc.2 = none)
    (hsum : (cl.map (fun rc => g rc.1 rc.2)).sum = s)
    (hdist : (cl.map (fun rc => g rc.1 rc.2)).Pairwise (fun a b => a ≠ b)) :
    validRun (extractSolution p g) cl s := by
  have hval : ∀ rc ∈ cl, solValue (extractSolution p g) rc.1 rc.2 = some (g rc.1 rc.2) := by
    intro rc hrc
    have hB := hbound rc hrc
    have h19 := basicOK_blank hb hB.1 hB.2 (hblank rc hrc)
    exact solValue_extractSolution hB.1 hB.2 (by omega)
  have hmap : cl.map (fun rc => solValue (extractSolution p g) rc.1 rc.2)
      = cl.map (fun rc => some (g rc.1 rc.2)) :=
    List.map_congr_left hval
  refine ⟨fun rc hrc => by rw [hval rc hrc]; rfl, ?_, ?_⟩
  · rw [hmap, reduceOption_map_some]
    exact hdist
  · rw [hmap, reduceOption_map_some]
    exact hsum

/-! ## Claim theorems -/

/-- **C1** (amended).  Soundness of the solver, modulo empty runs and modulo
the axis bug, i.e. on square boards: for every constructed puzzle with
`rows = cols` on which `solve_kakuro` returns a solution (it did not crash
and Z3 reported a model `g` of the asserted constraints) and whose declared
runs are all nonempty, the returned assignment gives every blank cell
exactly one digit in 1..9, and the digits of every run anchored by a clue
with a `right`/`down` sum are pairwise distinct and sum exactly to the
target, so the Solution Validator accepts the returned solution.  (The claim
as frozen is refuted twice by `C1_soundness_counterexample`: an empty run's
constraint is silently dropped, and on a non-square board the solver sweeps
the grid with transposed bounds, so the returned solution misses blanks of
the spec's `[0, cols) × [0, rows)` grid and the Validator rejects it.) -/
theorem C1_solver_soundness (size : Nat × Nat) (cells : List CellDesc)
    (g : Nat → Nat → Int)
    (hsq : size.1 = size.2)
    (hret : SolveReturns (KakuroPuzzle.mk' size cells) g)
    (hruns : noEmptyRuns (KakuroPuzzle.mk' size cells)) :
    validatorAccepts (KakuroPuzzle.mk' size cells)
      (extractSolution (KakuroPuzzle.mk' size cells) g) := by
  obtain ⟨hraise, hb, hs⟩ := hret
  constructor
  · intro x hx y hy hn
    have hx' : x < (KakuroPuzzle.mk' size cells).size.1 := by
      have hx2 : x < size.2 := hx
      have : x < size.1 := by rw [hsq]; exact hx2
      exact this
    have hy' : y < (KakuroPuzzle.mk' size cells).size.2 := by
      have hy2 : y < size.1 := hy
      have : y < size.2 := by rw [← hsq]; exact hy2
      exact this
    have h19 := basicOK_blank hb hx' hy' hn
    refine ⟨countP_extractSolution hx' hy' (by omega), ?_⟩
    intro c hc hcx hcy
    rcases mem_extractSolution.mp hc with ⟨i', hi', j', hj', h0', rfl⟩
    have hcx' : i' = x := hcx
    have hcy' : j' = y := hcy
    subst hcx'
    subst hcy'
    exact h19
  · intro clue hc
    have hbounds := no_raise_bounds hraise hc
    have hrun := hruns clue hc
    have hsum2 := hs clue hc
    constructor
    · cases hrow : clue.row_sum with
      | none => exact trivial
      | some s =>
          have hiss : clue.row_sum.isSome = true := by rw [hrow]; rfl
          have hne := hrun.1 hiss
          have hcon := hsum2.1
          rw [hrow] at hcon
          obtain ⟨hsum, hdist⟩ := hcon hne
          exact validRun_of_solver hb (hbounds.1 hiss)
            (fun rc hrc => (mk'_is_wall_false_iff size cells rc.1 rc.2).mp
              (rightCells_not_wall hrc)) hsum hdist
    · cases hcol : clue.col_sum with
      | none => exact trivial
      | some s =>
          have hiss : clue.col_sum.isSome = true := by rw [hcol]; rfl
          have hne := hrun.2 hiss
          have hcon := hsum2.2
          rw [hcol] at hcon
          obtain ⟨hsum, hdist⟩ := hcon hne
          exact validRun_of_solver hb (hbounds.2 hiss)
            (fun rc hrc => (mk'_is_wall_false_iff size cells rc.1 rc.2).mp
              (downCells_not_wall hrc)) hsum hdist

/-- **C1** witness: the amended soundness theorem applied to the concrete
square 2×2 puzzle with clue `right=3` at (0,0) and the model Z3 can return
for it. -/
theorem C1_solver_soundness_witness :
    validatorAccepts squarePuzzle (extractSolution squarePuzzle squareModel) :=
  C1_solver_soundness (2, 2) [⟨0, 0, none, some 3, none⟩] squareModel
    rfl (by decide) (by decide)

/-- On a constructed puzzle whose declared runs are all nonempty, the
reference brute-force check finds an assignment iff the constraint system
`solve_kakuro` asserts is satisfiable. -/
theorem brute_iff_solver (size : Nat × Nat) (cells : List CellDesc)
    (hruns : noEmptyRuns (KakuroPuzzle.mk' size cells)) :
    BruteForceSat (KakuroPuzzle.mk' size cells)
      ↔ ∃ g, SolverOK (KakuroPuzzle.mk' size cells) g := by
  constructor
  · rintro ⟨f, hblank, hrun⟩
    refine ⟨fun i j =>
      if ((KakuroPuzzle.mk' size cells).get_clue i j).isSome then 0 else f i j, ?_, ?_⟩
    · intro i hi j hj
      unfold cellConstraintOK
      cases h : (KakuroPuzzle.mk' size cells).get_clue i j with
      | some c => simp [h]
      | none => simpa [h] using hblank i hi j hj h
    · intro clue hc
      have hr := hrun clue hc
      have hmap : ∀ cl : List (Nat × Nat),
          (∀ rc ∈ cl, (KakuroPuzzle.mk' size cells).get_clue rc.1 rc.2 = none) →
          cl.map (fun rc =>
              if ((KakuroPuzzle.mk' size cells).get_clue rc.1 rc.2).isSome then 0
              else f rc.1 rc.2)
            = cl.map (fun rc => f rc.1 rc.2) := by
        intro cl hbl
        refine List.map_congr_left ?_
        intro rc hrc
        rw [hbl rc hrc]
        rfl
      constructor
      · cases hrow : clue.row_sum with
        | none => exact trivial
        | some s =>
            intro _
            have h2 := hr.1
            rw [hrow] at h2
            rw [hmap _ (fun rc hrc =>
              (mk'_is_wall_false_iff size cells rc.1 rc.2).mp (rightCells_not_wall hrc))]
            exact ⟨h2.1, h2.2⟩
      · cases hcol : clue.col_sum with
        | none => exact trivial
        | some s =>
            intro _
            have h2 := hr.2
            rw [hcol] at h2
            rw [hmap _ (fun rc hrc =>
              (mk'_is_wall_false_iff size cells rc.1 rc.2).mp (downCells_not_wall hrc))]
            exact ⟨h2.1, h2.2⟩
  · rintro ⟨g, hb, hs⟩
    refine ⟨g, fun i hi j hj hn => basicOK_blank hb hi hj hn, ?_⟩
    intro clue hc
    have hr := hs clue hc
    have hrun := hruns clue hc
    constructor
    · cases hrow : clue.row_sum with
      | none => exact trivial
      | some s =>
          have hiss : clue.row_sum.isSome = true := by rw [hrow]; rfl
          have h2 := hr.1
          rw [hrow] at h2
          exact h2 (hrun.1 hiss)
    · cases hcol : clue.col_sum with
      | none => exact trivial
      | some s =>
          have hiss : clue.col_sum.isSome = true := by rw [hcol]; rfl
          have h2 := hr.2
          rw [hcol] at h2
          exact h2 (hrun.2 hiss)

/-- **C2** (amended).  Completeness of the solver, for puzzles on which it
neither crashes (all run cells index inside the `rows × cols` grid, see C4)
nor has an empty declared run (see C5): if the reference brute-force check
finds no satisfying assignment, `solve_kakuro` returns `None`; if at least
one exists, it returns a solution.  (The claim as frozen is refuted by
`C2_completeness_counterexample`.) -/
theorem C2_solver_completeness (size : Nat × Nat) (cells : List CellDesc)
    (hraise : solveRaises (KakuroPuzzle.mk' size cells) = false)
    (hruns : noEmptyRuns (KakuroPuzzle.mk' size cells)) :
    (¬ BruteForceSat (KakuroPuzzle.mk' size cells)
        → SolveReturnsNone (KakuroPuzzle.mk' size cells)) ∧
    (BruteForceSat (KakuroPuzzle.mk' size cells)
        → ∃ g, SolveReturns (KakuroPuzzle.mk' size cells) g) := by
  have hiff := brute_iff_solver size cells hruns
  constructor
  · intro hnb
    exact ⟨hraise, fun g hg => hnb (hiff.mpr ⟨g, hg⟩)⟩
  · intro hbf
    obtain ⟨g, hg⟩ := hiff.mp hbf
    exact ⟨g, hraise, hg⟩

/-- **C2** witness: on the concrete solvable 2×2 puzzle, a brute-force
assignment exists, and the amended completeness theorem turns it into a
returned solution. -/
theorem C2_solver_completeness_witness :
    ∃ g, SolveReturns squarePuzzle g :=
  (C2_solver_completeness (2, 2) [⟨0, 0, none, some 3, none⟩]
      (by decide) (by decide)).2
    ⟨squareAssign, by decide, by decide⟩

/-- **C2** counterexample to the claim as frozen, refuting both halves.
First half: on the 1×1 board with a dangling clue `right=3`, exhaustive
enumeration finds no satisfying assignment (the clue's run is empty, so no
digits can sum to 3), yet `solve_kakuro` does not return `None` — it returns
the empty solution.  Second half: on the 2×3 scenario board — whose declared
run is nonempty and whose descriptor is in range, so it is well-formed under
any reading — a satisfying assignment exists, yet `solve_kakuro` does not
return a solution (it raises, see C4). -/
theorem C2_completeness_counterexample :
    (¬ BruteForceSat danglingCluePuzzle ∧ SolveReturns danglingCluePuzzle zeroGrid) ∧
    (BruteForceSat scenarioPuzzle ∧ noEmptyRuns scenarioPuzzle ∧
      ∀ g, ¬ SolveReturns scenarioPuzzle g) := by
  refine ⟨⟨?_, by decide⟩, ⟨scenarioAssign, by decide, by decide⟩, by decide, ?_⟩
  · rintro ⟨f, hblank, hrun⟩
    have hc := hrun ⟨0, 0, some 3, none, true⟩ (by decide)
    have h2 := hc.1
    have h3 : (0 : Int) = 3 := h2.1
    exact absurd h3 (by decide)
  · intro g hg
    exact absurd hg.1 (by decide)

/-- **C1** counterexample to the claim as frozen, in two independent ways.
First: on the 1×1 board whose only descriptor is a clue at (0,0) with
`right=3`, `solve_kakuro` returns a solution (the empty one, from the
all-zero model), yet the clue's run sums to 0 ≠ 3, so the Solution Validator
rejects the returned solution.  Second: on the well-formed all-blank board
with 3 rows and 2 cols (no clues, hence no empty runs and nothing to raise
on), `solve_kakuro` returns a solution swept with transposed bounds — it
contains cells with x = 2 outside the spec's x < cols = 2 grid and misses
the genuine blanks (0,2) and (1,2) — so the Solution Validator rejects it. -/
theorem C1_soundness_counterexample :
    (SolveReturns danglingCluePuzzle zeroGrid ∧
      ¬ validatorAccepts danglingCluePuzzle
        (extractSolution danglingCluePuzzle zeroGrid)) ∧
    (SolveReturns blankRectPuzzle oneGrid ∧
      noEmptyRuns blankRectPuzzle ∧
      (⟨2, 0, 1⟩ : SolutionCell) ∈ extractSolution blankRectPuzzle oneGrid ∧
      (extractSolution blankRectPuzzle oneGrid).countP
        (fun c => c.x == 0 && c.y == 2) = 0 ∧
      ¬ validatorAccepts blankRectPuzzle
        (extractSolution blankRectPuzzle oneGrid)) := by
  refine ⟨⟨?_, ?_⟩, ?_, ?_, ?_, ?_, ?_⟩ <;> decide

/-- **C3** (code bug).  On the spec's scenario — size (2,3) with the single
clue `right=3` at (0,0) — the claim expects the deterministic solution
`(1,0) ↦ 1, (2,0) ↦ 2`.  The run is extracted as `[(1,0), (2,0)]` and a
satisfying assignment exists (the brute-force reference finds one), but
`solve_kakuro` indexes `grid[2][0]` in a 2-row grid (`get_sum_run` bounds the
rightward walk by `cols` while the result is used as a row index), so it
raises `IndexError` and returns nothing at all. -/
theorem C3_scenario_crash :
    (get_sum_run scenarioPuzzle 0 0 "right").2 = [(1, 0), (2, 0)] ∧
    scenarioPuzzle.size.1 = 2 ∧
    solveRaises scenarioPuzzle = true ∧
    (∀ g, ¬ SolveReturns scenarioPuzzle g) ∧
    BruteForceSat scenarioPuzzle := by
  refine ⟨by decide, rfl, by decide, ?_, ?_⟩
  · intro g hg
    exact absurd hg.1 (by decide)
  · exact ⟨scenarioAssign, by decide, by decide⟩

/-- **C4** (code bug).  The claim says `solve_kakuro` never raises on a
schema-valid puzzle whose descriptor coordinates are in range.  Refutation at
the concrete puzzle `scenarioPuzzle` (size (2,3), one in-range descriptor):
translating the run cell (2,0) into a grid variable indexes row 2 of a 2-row
grid, so the engine raises `IndexError`: it neither returns a solution nor
returns `None`. -/
theorem C4_never_raises_refuted :
    scenarioPuzzle.size = (2, 3) ∧
    (∀ e ∈ scenarioPuzzle.board, e.1.1 < 3 ∧ e.1.2 < 2) ∧
    solveRaises scenarioPuzzle = true ∧
    ¬ SolveReturnsNone scenarioPuzzle ∧
    ∀ g, ¬ SolveReturns scenarioPuzzle g := by
  refine ⟨rfl, by decide, by decide, ?_, ?_⟩
  · intro hg
    exact absurd hg.1 (by decide)
  · intro g hg
    exact absurd hg.1 (by decide)

/-- **C5** counterexample to the claim as frozen: a board containing a clue
whose declared run is empty is *not* rejected with an `EmptyRun` error before
search — no such error exists.  On the 1×1 board with dangling clue
`right=3`, the clue is stored, its run is empty, and the search still runs
and returns a solution. -/
theorem C5_empty_run_counterexample :
    (get_sum_run danglingCluePuzzle 0 0 "right").2 = [] ∧
    danglingCluePuzzle.get_clue 0 0 = some ⟨0, 0, some 3, none, true⟩ ∧
    SolveReturns danglingCluePuzzle zeroGrid := by
  exact ⟨by decide, by decide, by decide⟩

/-- **C5** (amended).  A clue whose declared run is empty has its sum
constraint silently dropped (`if right_cells:` in `solve_kakuro`): for every
nonzero target `s`, the 1×1 board with dangling clue `right=s` produces an
empty run, raises nothing, satisfies all asserted constraints with the
all-zero model, and is reported solved with the empty solution — the sum `s`
is never checked. -/
theorem C5_empty_run_dropped (s : Int) (hs : s ≠ 0) :
    (get_sum_run (KakuroPuzzle.mk' (1, 1) [⟨0, 0, none, some s, none⟩]) 0 0 "right").2 = [] ∧
    SolveReturns (KakuroPuzzle.mk' (1, 1) [⟨0, 0, none, some s, none⟩]) zeroGrid ∧
    extractSolution (KakuroPuzzle.mk' (1, 1) [⟨0, 0, none, some s, none⟩]) zeroGrid = [] := by
  have hb : (KakuroPuzzle.mk' (1, 1) [⟨0, 0, none, some s, none⟩]).board
      = [((0, 0), ⟨0, 0, some s, none, true⟩)] := by
    simp [KakuroPuzzle.mk', mkBoard, boardStep, clueOfDesc, wallTruthy, truthyInt,
      truthyBool, insertBoard, hs]
  have hrc : rightCells (KakuroPuzzle.mk' (1, 1) [⟨0, 0, none, some s, none⟩])
      ⟨0, 0, some s, none, true⟩ = [] := rfl
  have hdc : downCells (KakuroPuzzle.mk' (1, 1) [⟨0, 0, none, some s, none⟩])
      ⟨0, 0, some s, none, true⟩ = [] := rfl
  have hcl : (KakuroPuzzle.mk' (1, 1) [⟨0, 0, none, some s, none⟩]).cluesList
      = [⟨0, 0, some s, none, true⟩] := by
    unfold KakuroPuzzle.cluesList
    rw [hb]
    rfl
  have hg0 : (KakuroPuzzle.mk' (1, 1) [⟨0, 0, none, some s, none⟩]).get_clue 0 0
      = some ⟨0, 0, some s, none, true⟩ := by
    unfold KakuroPuzzle.get_clue
    rw [hb]
    rfl
  refine ⟨rfl, ⟨?_, ?_, ?_⟩, rfl⟩
  · unfold solveRaises
    rw [hcl, List.any_cons, List.any_nil, Bool.or_false]
    unfold solveRaisesClue
    rw [hrc, hdc]
    rfl
  · intro i hi j hj
    have hi1 : i < 1 := hi
    have hj1 : j < 1 := hj
    have hi0 : i = 0 := by omega
    have hj0 : j = 0 := by omega
    subst hi0; subst hj0
    unfold cellConstraintOK
    rw [hg0]
    rfl
  · intro clue hc
    rw [hcl, List.mem_singleton] at hc
    subst hc
    refine ⟨fun hne => absurd hrc hne, trivial⟩

/-- **C5** witness: the amended empty-run theorem applied at `s = 7`. -/
theorem C5_empty_run_dropped_witness :
    SolveReturns (KakuroPuzzle.mk' (1, 1) [⟨0, 0, none, some 7, none⟩]) zeroGrid :=
  (C5_empty_run_dropped 7 (by decide)).2.1

/-- **C6** counterexample to the claim as frozen: two descriptors at (0,0)
(clues `right=3` then `right=5`).  `KakuroPuzzle.__init__` does not fail with
a `DuplicateCell` error — no such check exists; a board **is** produced and
the later descriptor silently overwrote the earlier one (the stored clue has
`row_sum = 5`, the `right=3` clue is gone). -/
theorem C6_duplicate_counterexample :
    (KakuroPuzzle.mk' (2, 2)
        [⟨0, 0, none, some 3, none⟩, ⟨0, 0, none, some 5, none⟩]).board
      = [((0, 0), ⟨0, 0, some 5, none, true⟩)] := by decide

/-- **C6** (amended).  Duplicate coordinates never make board construction
fail: for every prefix of descriptors and every final wall/clue descriptor
`d`, construction succeeds and the stored cell at `(d.x, d.y)` is the one
built from `d` — a later wall/clue descriptor at a duplicated coordinate
silently overwrites whatever was stored before. -/
theorem C6_duplicate_overwrites (size : Nat × Nat) (cells : List CellDesc)
    (d : CellDesc) (hd : wallTruthy d = true) :
    (KakuroPuzzle.mk' size (cells ++ [d])).get_clue d.x d.y
      = some ⟨d.x, d.y, d.right, d.down, true⟩ := by
  unfold KakuroPuzzle.mk' KakuroPuzzle.get_clue mkBoard
  rw [List.foldl_append, List.foldl_cons, List.foldl_nil]
  show boardFind (boardStep (cells.foldl boardStep []) d) (d.x, d.y) = _
  unfold boardStep
  rw [if_pos hd, boardFind_insert_self]
  unfold clueOfDesc
  rw [hd]

/-- **C6** witness: the overwrite theorem at the concrete duplicate pair. -/
theorem C6_duplicate_overwrites_witness :
    (KakuroPuzzle.mk' (2, 2)
        [⟨0, 0, none, some 3, none⟩, ⟨0, 0, none, some 5, none⟩]).get_clue 0 0
      = some ⟨0, 0, some 5, none, true⟩ :=
  C6_duplicate_overwrites (2, 2) [⟨0, 0, none, some 3, none⟩]
    ⟨0, 0, none, some 5, none⟩ (by decide)

/-- **C7** counterexample to the claim as frozen: a descriptor whose only sum
field is `right=0` does not make construction fail with `InvalidSum` — no
such check exists.  The board is built, and the cell is silently treated as
Blank (nothing is stored: `0` is falsy in `wall or row_sum or col_sum`);
a negative sum `right=-2` is even accepted and stored as a clue. -/
theorem C7_invalid_sum_counterexample :
    (KakuroPuzzle.mk' (1, 1) [⟨0, 0, none, some 0, none⟩]).board = [] ∧
    (KakuroPuzzle.mk' (1, 1) [⟨0, 0, none, some 0, none⟩]).get_clue 0 0 = none ∧
    (KakuroPuzzle.mk' (1, 1) [⟨0, 0, none, some (-2), none⟩]).get_clue 0 0
      = some ⟨0, 0, some (-2), none, true⟩ := by decide

/-- **C7** (amended).  Construction never rejects a non-positive sum: a
descriptor carrying only a `right` sum `n` is dropped (treated as Blank)
exactly when `n = 0`, and stored as a clue cell — even for negative `n` —
otherwise.  No `InvalidSum` error exists in the code. -/
theorem C7_nonpositive_sum_behavior (x y : Nat) (n : Int) :
    ((KakuroPuzzle.mk' (3, 3) [⟨x, y, none, some n, none⟩]).get_clue x y
      = if n = 0 then none else some ⟨x, y, some n, none, true⟩) ∧
    ((KakuroPuzzle.mk' (3, 3) [⟨x, y, none, none, some n⟩]).get_clue x y
      = if n = 0 then none else some ⟨x, y, none, some n, true⟩) := by
  constructor
  · by_cases h : n = 0
    · subst h
      rw [if_pos rfl]
      rfl
    · rw [if_neg h]
      have hbn : wallTruthy ⟨x, y, none, some n, none⟩ = true := by
        simp [wallTruthy, truthyInt, truthyBool, h]
      unfold KakuroPuzzle.mk' KakuroPuzzle.get_clue mkBoard
      rw [List.foldl_cons, List.foldl_nil]
      show boardFind (boardStep [] ⟨x, y, none, some n, none⟩) (x, y) = _
      unfold boardStep
      rw [if_pos hbn, boardFind_insert_self]
      unfold clueOfDesc
      rw [hbn]
  · by_cases h : n = 0
    · subst h
      rw [if_pos rfl]
      rfl
    · rw [if_neg h]
      have hbn : wallTruthy ⟨x, y, none, none, some n⟩ = true := by
        simp [wallTruthy, truthyInt, truthyBool, h]
      unfold KakuroPuzzle.mk' KakuroPuzzle.get_clue mkBoard
      rw [List.foldl_cons, List.foldl_nil]
      show boardFind (boardStep [] ⟨x, y, none, none, some n⟩) (x, y) = _
      unfold boardStep
      rw [if_pos hbn, boardFind_insert_self]
      unfold clueOfDesc
      rw [hbn]

/-- **C7** witness: the behavior theorem applied at the concrete negative
sum `n = -3` (stored as a clue despite not being a positive integer). -/
theorem C7_nonpositive_sum_behavior_witness :
    (KakuroPuzzle.mk' (3, 3) [⟨1, 1, none, some (-3), none⟩]).get_clue 1 1
      = if (-3 : Int) = 0 then none else some ⟨1, 1, some (-3), none, true⟩ :=
  (C7_nonpositive_sum_behavior 1 1 (-3)).1

/-- **C8** (confirmed).  Run extraction contract for both directions on any
constructed board: a coordinate is in the extracted run iff it lies strictly
between the clue and the grid bound for that direction and every cell from
the one immediately after the clue up to it (inclusive) is Blank (no stored
wall/clue) — so the walk includes everything before the first non-Blank cell
and nothing at or beyond it; the run is listed in walk order (strictly
increasing coordinate); and the returned count is the run's length. -/
theorem C8_run_extraction (size : Nat × Nat) (cells : List CellDesc) (fx fy : Nat) :
    (∀ a : Nat × Nat,
      a ∈ (get_sum_run (KakuroPuzzle.mk' size cells) fx fy "right").2
        ↔ a.2 = fy ∧ fx < a.1 ∧ a.1 < size.2 ∧
            ∀ z, fx < z → z ≤ a.1 → (KakuroPuzzle.mk' size cells).get_clue z fy = none) ∧
    ((get_sum_run (KakuroPuzzle.mk' size cells) fx fy "right").2.Pairwise
        (fun a b => a.1 < b.1)) ∧
    ((get_sum_run (KakuroPuzzle.mk' size cells) fx fy "right").1
        = (get_sum_run (KakuroPuzzle.mk' size cells) fx fy "right").2.length) ∧
    (∀ a : Nat × Nat,
      a ∈ (get_sum_run (KakuroPuzzle.mk' size cells) fx fy "down").2
        ↔ a.1 = fx ∧ fy < a.2 ∧ a.2 < size.1 ∧
            ∀ z, fy < z → z ≤ a.2 → (KakuroPuzzle.mk' size cells).get_clue fx z = none) ∧
    ((get_sum_run (KakuroPuzzle.mk' size cells) fx fy "down").2.Pairwise
        (fun a b => a.2 < b.2)) ∧
    ((get_sum_run (KakuroPuzzle.mk' size cells) fx fy "down").1
        = (get_sum_run (KakuroPuzzle.mk' size cells) fx fy "down").2.length) := by
  have hq1 : (KakuroPuzzle.mk' size cells).size.1 = size.1 := rfl
  have hq2 : (KakuroPuzzle.mk' size cells).size.2 = size.2 := rfl
  refine ⟨?_, ?_, rfl, ?_, ?_, rfl⟩
  · intro a
    rw [get_sum_run_right_def]
    constructor
    · intro h
      rcases List.mem_map.mp h with ⟨x, hx, rfl⟩
      obtain ⟨h1, h2, h3⟩ := (mem_takeWhile_range' _ _ _ _).mp hx
      refine ⟨rfl, by omega, by omega, ?_⟩
      intro z hz1 hz2
      exact (mk'_is_wall_false_iff size cells z fy).mp (by simpa using h3 z (by omega) hz2)
    · rintro ⟨h0, h1, h2, h3⟩
      refine List.mem_map.mpr ⟨a.1,
        (mem_takeWhile_range' _ _ _ _).mpr ⟨by omega, by omega, ?_⟩, ?_⟩
      · intro z hz1 hz2
        have := (mk'_is_wall_false_iff size cells z fy).mpr (h3 z (by omega) hz2)
        simp [this]
      · rw [← h0]
  · rw [get_sum_run_right_def]
    exact (pairwise_takeWhile_range' _ _ _).map _ (fun a b h => h)
  · intro a
    rw [get_sum_run_down_def]
    constructor
    · intro h
      rcases List.mem_map.mp h with ⟨y, hy, rfl⟩
      obtain ⟨h1, h2, h3⟩ := (mem_takeWhile_range' _ _ _ _).mp hy
      refine ⟨rfl, by omega, by omega, ?_⟩
      intro z hz1 hz2
      exact (mk'_is_wall_false_iff size cells fx z).mp (by simpa using h3 z (by omega) hz2)
    · rintro ⟨h0, h1, h2, h3⟩
      refine List.mem_map.mpr ⟨a.2,
        (mem_takeWhile_range' _ _ _ _).mpr ⟨by omega, by omega, ?_⟩, ?_⟩
      · intro z hz1 hz2
        have := (mk'_is_wall_false_iff size cells fx z).mpr (h3 z (by omega) hz2)
        simp [this]
      · rw [← h0]
  · rw [get_sum_run_down_def]
    exact (pairwise_takeWhile_range' _ _ _).map _ (fun a b h => h)

/-- **C8** witness: the extraction contract applied to the scenario board —
cell (1,0) belongs to the rightward run of the clue at (0,0). -/
theorem C8_run_extraction_witness :
    ((1, 0) : Nat × Nat) ∈ (get_sum_run scenarioPuzzle 0 0 "right").2 :=
  ((C8_run_extraction (2, 3) [⟨0, 0, none, some 3, none⟩] 0 0).1 (1, 0)).mpr
    ⟨rfl, by omega, by omega, fun z hz1 hz2 => by
      have hz : z = 1 := by omega
      subst hz
      decide⟩

/-- **C9** counterexample to the claim as frozen: its final conjunct says a
descriptor with `wall` unset and no positive sum is never stored.  But `-1`
is truthy in Python, so the descriptor `right=-1` (wall unset, no positive
sum, `-1 < 0`) **is** stored as a clue cell. -/
theorem C9_negative_sum_stored_counterexample :
    ¬ (0 : Int) < -1 ∧
    (KakuroPuzzle.mk' (1, 1) [⟨0, 0, none, some (-1), none⟩]).get_clue 0 0
      = some ⟨0, 0, some (-1), none, true⟩ := by decide

/-- **C9** (amended).  Board membership invariant: every stored `ClueCell`
has a truthy `is_wall` field, hence `get_clue` is populated exactly where
`is_wall` is truthy — run termination and the solver's zero-pinning agree on
the same cells; and a descriptor with `wall` unset and no *nonzero* sum
(rather than no *positive* sum, refuted above) is never stored: a coordinate
all of whose descriptors are falsy stays Blank. -/
theorem C9_board_invariant (size : Nat × Nat) (cells : List CellDesc) (x y : Nat)
    (h : ∀ d ∈ cells, d.x = x → d.y = y → wallTruthy d = false) :
    (∀ e ∈ (KakuroPuzzle.mk' size cells).board, e.2.is_wall = true) ∧
    (∀ u v : Nat, ((KakuroPuzzle.mk' size cells).get_clue u v).isSome
        = (KakuroPuzzle.mk' size cells).is_wall u v) ∧
    (KakuroPuzzle.mk' size cells).get_clue x y = none := by
  refine ⟨mkBoard_is_wall cells, fun u v => (mk'_is_wall_eq size cells u v).symm, ?_⟩
  unfold KakuroPuzzle.get_clue KakuroPuzzle.mk' mkBoard
  have key : ∀ (l : List CellDesc) (b : Board),
      (∀ d ∈ l, d.x = x → d.y = y → wallTruthy d = false) →
      boardFind b (x, y) = none →
      boardFind (l.foldl boardStep b) (x, y) = none := by
    intro l
    induction l with
    | nil => intro b _ hb; simpa using hb
    | cons c rest ih =>
        intro b hl hb
        rw [List.foldl_cons]
        refine ih (boardStep b c) (fun d hd => hl d (List.mem_cons_of_mem _ hd)) ?_
        unfold boardStep
        by_cases hw : wallTruthy c = true
        · rw [if_pos hw]
          have hck : (x, y) ≠ (c.x, c.y) := by
            intro he
            have hx : c.x = x := (congrArg Prod.fst he).symm
            have hy : c.y = y := (congrArg Prod.snd he).symm
            rw [hl c (List.mem_cons_self _ _) hx hy] at hw
            exact absurd hw (by decide)
          rw [boardFind_insert_other _ _ _ _ hck]
          exact hb
        · rw [if_neg hw]
          exact hb
  exact key cells [] h rfl

/-- **C9** witness: at a concrete board with one real clue and one falsy
descriptor at (1,1), the invariant instance shows (1,1) stays Blank. -/
theorem C9_board_invariant_witness :
    (KakuroPuzzle.mk' (2, 2)
        [⟨0, 0, none, some 3, none⟩, ⟨1, 1, none, some 0, none⟩]).get_clue 1 1 = none :=
  (C9_board_invariant (2, 2) [⟨0, 0, none, some 3, none⟩, ⟨1, 1, none, some 0, none⟩]
    1 1 (by decide)).2.2

set_option maxRecDepth 10000 in
/-- **C10** (code bug).  The claim says that for every schema-valid puzzle
dict, `pretty_json_str` returns, having sorted `cells` (and `solution_cells`
when present) in place, and the returned string parses back to a schema-valid
document.  But whenever the optional `solution_cells` key is absent, the
built string ends the cells array with `"\n  ],\n"` followed directly by the
closing brace — a trailing comma — so the function's own final
`json.loads(json_str)` raises and nothing is returned, contradicting the
code's own self-check (`# Make sure that final json is valid`).  At the
concrete schema-valid two-cell dict: the in-place sort does happen (the two
cells come out reordered), the rendered string is exactly the one shown with
the trailing comma, the strict JSON reader rejects it, and the function
raises (`none`) — while the same dict with a `solution_cells` list present
returns normally. -/
theorem C10_pretty_json_str_trailing_comma :
    docSchemaOK puzzleDocNoSol = true ∧
    (prettySortEffect puzzleDocNoSol).cells =
      [[("x", JVal.jint 0), ("y", JVal.jint 0), ("wall", JVal.jbool true)],
       [("x", JVal.jint 1), ("y", JVal.jint 0), ("wall", JVal.jbool true)]] ∧
    prettyRender (prettySortEffect puzzleDocNoSol) =
      "\x7b\n  \"size\": [2, 2],\n  \"cells\": [\n    \x7b \"x\": 0, \"y\": 0, \"wall\": true \x7d,\n    \x7b \"x\": 1, \"y\": 0, \"wall\": true \x7d\n  ],\n\x7d" ∧
    (parseJson (prettyRender (prettySortEffect puzzleDocNoSol))).isNone = true ∧
    (pretty_json_str puzzleDocNoSol).isNone = true ∧
    (pretty_json_str puzzleDocWithSol).isSome = true := by
  refine ⟨?_, ?_, ?_, ?_, ?_, ?_⟩ <;> decide

end Kakuro
